import Mathlib

set_option maxHeartbeats 1000000

/-! Verification of the terminal-output interpretation and validation
engine of the `mimic` repository (a TUI test harness): the Sixel
geometry algebra, capture validation and the stubbed extraction entry
point (`src/src/sixel.rs`), the condition-polling loop and the PTY
drain loop (`src/src/harness.rs`), and the text query path
(`src/src/screen.rs`). Rust `u16` values are modelled as `Nat` with
additions reduced modulo `2 ^ 16` exactly where the source adds `u16`s;
bytes (`u8`) are modelled as `Nat`; fallible paths return
`Except`/`Option`. -/

/-- The modulus of Rust `u16` arithmetic: every `+` the source performs
on `u16` operands is modelled as a `Nat` addition followed by
`% u16Mod` (release-mode wraparound semantics; with overflow checks
enabled the same additions panic instead, see the C2 theorem). -/
def u16Mod : Nat := 65536

/-- From `src/src/sixel.rs`, `SixelSequence`: a captured Sixel escape
sequence — raw bytes, the cursor position `(row, col)` at render time,
and the bounding rectangle `(row, col, width, height)`. -/
structure SixelSequence where
  raw : List Nat
  position : Nat × Nat
  bounds : Nat × Nat × Nat × Nat
deriving DecidableEq

/-- From `src/src/sixel.rs`, `SixelSequence::new`. -/
def SixelSequence.new (raw : List Nat) (position : Nat × Nat)
    (bounds : Nat × Nat × Nat × Nat) : SixelSequence :=
  ⟨raw, position, bounds⟩

/-- From `src/src/sixel.rs`, `SixelSequence::is_within`: containment of
`self.bounds` in `area`, both `(row, col, width, height)`. The source
computes `row + height` etc. directly on `u16`, hence the `% u16Mod`. -/
def SixelSequence.is_within (s : SixelSequence)
    (area : Nat × Nat × Nat × Nat) : Bool :=
  let (row, col, width, height) := s.bounds
  let (area_row, area_col, area_width, area_height) := area
  decide (row ≥ area_row) && decide (col ≥ area_col) &&
    decide ((row + height) % u16Mod ≤ (area_row + area_height) % u16Mod) &&
    decide ((col + width) % u16Mod ≤ (area_col + area_width) % u16Mod)

/-- From `src/src/sixel.rs`, `SixelSequence::overlaps`: negation of
strict separation on either axis, additions again on `u16`. -/
def SixelSequence.overlaps (s : SixelSequence)
    (area : Nat × Nat × Nat × Nat) : Bool :=
  let (row, col, width, height) := s.bounds
  let (area_row, area_col, area_width, area_height) := area
  !(decide ((row + height) % u16Mod ≤ area_row) ||
    decide ((col + width) % u16Mod ≤ area_col) ||
    decide (row ≥ (area_row + area_height) % u16Mod) ||
    decide (col ≥ (area_col + area_width) % u16Mod))

/-- Modelled from the spec: "implementations must promote to a wider
integer type for the additions" (spec §4.1). Same containment test as
`SixelSequence.is_within` but with the additions carried out exactly
(no 16-bit reduction). Used only to compare the source's arithmetic
against the spec's mandated arithmetic in claim C2. -/
def SixelSequence.is_within_promoted (s : SixelSequence)
    (area : Nat × Nat × Nat × Nat) : Bool :=
  let (row, col, width, height) := s.bounds
  let (area_row, area_col, area_width, area_height) := area
  decide (row ≥ area_row) && decide (col ≥ area_col) &&
    decide (row + height ≤ area_row + area_height) &&
    decide (col + width ≤ area_col + area_width)

/-- From `src/src/error.rs`, `TermTestError`, restricted to the variants
the claims exercise. In the source `SixelValidation` carries a string
formatted from the count of offending sequences, the asserted area and
their positions; the model carries those format arguments directly.
`IoFailure` carries the I/O error's display string (as a char list). -/
inductive TermTestError where
  | Timeout (timeout_ms : Nat)
  | SixelValidation (count : Nat) (area : Nat × Nat × Nat × Nat)
      (positions : List (Nat × Nat))
  | IoFailure (msg : List Char)
deriving DecidableEq

/-- From `src/src/sixel.rs`, `SixelCapture`: an ordered snapshot of
captured sequences. -/
structure SixelCapture where
  sequences : List SixelSequence
deriving DecidableEq

/-- From `src/src/sixel.rs`, `SixelCapture::new`. -/
def SixelCapture.new : SixelCapture := ⟨[]⟩

/-- From `src/src/sixel.rs`, `SixelCapture::is_empty`. -/
def SixelCapture.is_empty (c : SixelCapture) : Bool := c.sequences.isEmpty

/-- From `src/src/sixel.rs`, `SixelCapture::sequences_in_area`. -/
def SixelCapture.sequences_in_area (c : SixelCapture)
    (area : Nat × Nat × Nat × Nat) : List SixelSequence :=
  c.sequences.filter (fun s => s.is_within area)

/-- From `src/src/sixel.rs`, `SixelCapture::sequences_outside_area`. -/
def SixelCapture.sequences_outside_area (c : SixelCapture)
    (area : Nat × Nat × Nat × Nat) : List SixelSequence :=
  c.sequences.filter (fun s => !(s.is_within area))

/-- From `src/src/sixel.rs`, `SixelCapture::assert_all_within`: errors
with the count, area and positions of the sequences outside `area` when
that set is non-empty, succeeds otherwise. -/
def SixelCapture.assert_all_within (c : SixelCapture)
    (area : Nat × Nat × Nat × Nat) : Except TermTestError Unit :=
  let outside := c.sequences_outside_area area
  if !outside.isEmpty then
    Except.error (TermTestError.SixelValidation outside.length area
      (outside.map (fun s => s.position)))
  else
    Except.ok ()

/-- From `src/src/sixel.rs`, `SixelCapture::differs_from`: structural
inequality of the sequence lists (the derived `PartialEq` compares
`raw`, `position` and `bounds` of each element in order). -/
def SixelCapture.differs_from (c other : SixelCapture) : Bool :=
  decide (c.sequences ≠ other.sequences)

/-- Claim C9: containment is reflexive — `is_within` applied to a
sequence and its own bounds returns `true` for every sequence (both
sides of each comparison wrap identically). -/
theorem C9_is_within_refl (s : SixelSequence) : s.is_within s.bounds = true := by
  obtain ⟨raw, pos, r, c, w, h⟩ := s
  simp [SixelSequence.is_within]

/-- Claim C2: the additions in `is_within` are not promoted to a wider
type: at bounds `(row, col, width, height) = (65535, 0, 0, 1)` against
area `(0, 0, 0, 0)` the `u16` sum `row + height = 65536` overflows
(wrapping to `0`; panicking under overflow checks), so the source
returns `true` while the promoted arithmetic the spec mandates returns
`false`. -/
theorem C2_is_within_overflow :
    SixelSequence.is_within ⟨[], (0, 0), (65535, 0, 0, 1)⟩ (0, 0, 0, 0) = true
      ∧ SixelSequence.is_within_promoted ⟨[], (0, 0), (65535, 0, 0, 1)⟩
          (0, 0, 0, 0) = false := by
  constructor <;> decide

/-- Claim C6 counterexample: bounds `(1, 0, 1, 65535)` and area
`(0, 0, 1, 65535)` both have positive width and height and `is_within`
holds (the `u16` sum `1 + 65535` wraps to `0`), yet `overlaps` is
`false` — containment does not imply overlap on the code as written. -/
theorem C6_counterexample :
    SixelSequence.is_within ⟨[], (0, 0), (1, 0, 1, 65535)⟩ (0, 0, 1, 65535) = true
      ∧ SixelSequence.overlaps ⟨[], (0, 0), (1, 0, 1, 65535)⟩ (0, 0, 1, 65535) = false := by
  constructor <;> decide

/-- Claim C6 (amended): for rectangles of positive width and height
whose position-plus-extent sums do not overflow `u16` (all four sums
below `2 ^ 16`), containment implies overlap. -/
theorem C6_contains_implies_overlaps (s : SixelSequence)
    (area : Nat × Nat × Nat × Nat)
    (hw : 0 < s.bounds.2.2.1) (hh : 0 < s.bounds.2.2.2)
    (haw : 0 < area.2.2.1) (hah : 0 < area.2.2.2)
    (h1 : s.bounds.1 + s.bounds.2.2.2 < u16Mod)
    (h2 : s.bounds.2.1 + s.bounds.2.2.1 < u16Mod)
    (h3 : area.1 + area.2.2.2 < u16Mod)
    (h4 : area.2.1 + area.2.2.1 < u16Mod)
    (hin : s.is_within area = true) : s.overlaps area = true := by
  obtain ⟨raw, pos, r, c, w, h⟩ := s
  obtain ⟨ar, ac, aw, ah⟩ := area
  simp only [SixelSequence.is_within, SixelSequence.overlaps] at hin ⊢
  simp only at hw hh haw hah h1 h2 h3 h4
  rw [Nat.mod_eq_of_lt h1, Nat.mod_eq_of_lt h2] at hin ⊢
  rw [Nat.mod_eq_of_lt h3, Nat.mod_eq_of_lt h4] at hin ⊢
  simp only [Bool.and_eq_true, decide_eq_true_eq] at hin
  simp only [Bool.not_eq_true', Bool.or_eq_false_iff, decide_eq_false_iff_not, not_le]
  omega

/-- Claim C6 witness: the amended implication at the concrete contained
pair bounds `(5, 5, 10, 10)` inside area `(0, 0, 20, 20)`. -/
theorem C6_witness :
    SixelSequence.overlaps ⟨[], (5, 5), (5, 5, 10, 10)⟩ (0, 0, 20, 20) = true :=
  C6_contains_implies_overlaps ⟨[], (5, 5), (5, 5, 10, 10)⟩ (0, 0, 20, 20)
    (by decide) (by decide) (by decide) (by decide)
    (by decide) (by decide) (by decide) (by decide) (by decide)

/-- The element comparison `differs_from` relies on (position, bounds
and raw payload equal) is exactly structural equality of sequences. -/
theorem sixelSequence_eq_of_fields (s t : SixelSequence) :
    (s.position = t.position ∧ s.bounds = t.bounds ∧ s.raw = t.raw) ↔ s = t := by
  obtain ⟨r1, p1, b1⟩ := s
  obtain ⟨r2, p2, b2⟩ := t
  simp only [SixelSequence.mk.injEq]
  tauto

/-- Element-wise field equality of two sequence lists is equality of the
lists. -/
theorem forall₂_fields_iff_eq (l1 l2 : List SixelSequence) :
    List.Forall₂ (fun s t =>
        s.position = t.position ∧ s.bounds = t.bounds ∧ s.raw = t.raw) l1 l2
      ↔ l1 = l2 := by
  induction l1 generalizing l2 with
  | nil => cases l2 <;> simp
  | cons a l ih =>
    cases l2 with
    | nil => simp
    | cons b m => simp [List.forall₂_cons, ih, sixelSequence_eq_of_fields]

/-- Claim C7: `differs_from` is true iff the ordered sequence lists are
not element-wise equal (each element compared on position, bounds and
raw payload), and a capture never differs from itself. -/
theorem C7_differs_from (c1 c2 : SixelCapture) :
    (c1.differs_from c2 = true ↔
      ¬ List.Forall₂ (fun s t =>
          s.position = t.position ∧ s.bounds = t.bounds ∧ s.raw = t.raw)
        c1.sequences c2.sequences)
    ∧ c1.differs_from c1 = false := by
  constructor
  · simp [SixelCapture.differs_from, forall₂_fields_iff_eq]
  · simp [SixelCapture.differs_from]

/-- Claim C5: `assert_all_within` succeeds iff every sequence's bounds
are within the area (so it errors iff at least one is outside; it takes
the capture immutably and returns only the verdict); on failure the
error carries the count, the area and the positions of exactly the
sequences outside; on the empty capture it always succeeds. -/
theorem C5_assert_all_within (c : SixelCapture) (area : Nat × Nat × Nat × Nat) :
    (c.assert_all_within area = Except.ok () ↔
      ∀ s ∈ c.sequences, s.is_within area = true)
    ∧ (c.sequences_outside_area area ≠ [] →
        c.assert_all_within area = Except.error (TermTestError.SixelValidation
          (c.sequences_outside_area area).length area
          ((c.sequences_outside_area area).map (fun s => s.position))))
    ∧ SixelCapture.new.assert_all_within area = Except.ok () := by
  have hkey : c.sequences_outside_area area = [] ↔
      ∀ s ∈ c.sequences, s.is_within area = true := by
    simp [SixelCapture.sequences_outside_area, List.filter_eq_nil_iff]
  have h2 : (c.assert_all_within area = Except.ok ()) ↔
      c.sequences_outside_area area = [] := by
    simp only [SixelCapture.assert_all_within]
    cases h : c.sequences_outside_area area with
    | nil => simp [h]
    | cons a l => simp [h]
  refine ⟨h2.trans hkey, ?_, ?_⟩
  · intro hne
    have hfalse : (c.sequences_outside_area area).isEmpty = false := by
      cases h : c.sequences_outside_area area with
      | nil => exact absurd h hne
      | cons a l => simp
    simp [SixelCapture.assert_all_within, hfalse]
  · simp [SixelCapture.new, SixelCapture.assert_all_within,
      SixelCapture.sequences_outside_area]

/-- Claim C5 witness: at a concrete capture with one sequence outside
the area, `assert_all_within` reports that sequence's position. -/
theorem C5_witness :
    SixelCapture.assert_all_within ⟨[⟨[], (20, 20), (20, 20, 10, 10)⟩]⟩
        (0, 0, 15, 15) =
      Except.error (TermTestError.SixelValidation 1 (0, 0, 15, 15) [(20, 20)]) :=
  (C5_assert_all_within ⟨[⟨[], (20, 20), (20, 20, 10, 10)⟩]⟩ (0, 0, 15, 15)).2.1
    (by decide)

/-- From `src/src/sixel.rs`, `SixelCapture::from_output` (lines
101-109): the staged repository's only Sixel extraction entry point. It
is an explicit Phase 1 stub — the body ignores both arguments ("TODO:
Phase 3 - Implement Sixel sequence detection and parsing") and returns
the empty capture. -/
def SixelCapture.from_output (_output : List Nat)
    (_cursor_positions : List (Nat × Nat)) : SixelCapture :=
  SixelCapture.new

/-- Claim C1: the claim fails on the staged code: `ScreenState`
(`src/src/screen.rs` lines 9-13) has only `parser`, `width` and
`height` — no region list and no `sixel_regions` method — and `feed`
(lines 37-39) only forwards the bytes to the cell-grid parser, running
no Sixel extractor. The repository's sole extraction entry point, the
staged `from_output` stub, yields the empty sequence list for every
byte sequence and every cursor-position list, so no feeding ever
accumulates a region. -/
theorem C1_extraction_unimplemented (output : List Nat)
    (cursor_positions : List (Nat × Nat)) :
    (SixelCapture.from_output output cursor_positions).sequences = [] := rfl

/-- Claim C3: the claim fails on the staged code: running the staged
extraction entry point over exactly the claim's byte sequence —
`ESC[5;10H` followed by the complete Sixel DCS whose raster attributes
are `"1;1;100;50` and the terminator — with the matching cursor
position yields the empty capture (zero captured regions), not exactly
one region with `start_row = 4`, `start_col = 9`, `width = 100`,
`height = 50`; the staged `feed` (`src/src/screen.rs` lines 37-39)
likewise performs no extraction at all. -/
theorem C3_from_output_stub :
    (SixelCapture.from_output
        [27, 91, 53, 59, 49, 48, 72,
         27, 80, 113,
         34, 49, 59, 49, 59, 49, 48, 48, 59, 53, 48,
         35, 48, 126, 126, 64, 64, 118, 118,
         27, 92] [(4, 9)]).sequences = []
    ∧ SixelCapture.is_empty (SixelCapture.from_output
        [27, 91, 53, 59, 49, 48, 72,
         27, 80, 113,
         34, 49, 59, 49, 59, 49, 48, 48, 59, 53, 48,
         35, 48, 126, 126, 64, 64, 118, 118,
         27, 92] [(4, 9)]) = true :=
  ⟨rfl, rfl⟩

/-- From `src/src/harness.rs`, `TuiTestHarness::wait_for`, shallowly
embedded: each loop iteration calls `update_state` (abstracted as
succeeding; claim C8 models it), evaluates the predicate, and only then
compares elapsed time against the timeout. `cond i` is the predicate's
value at iteration `i`, `elapsed i` the `start.elapsed()` reading of
iteration `i` in milliseconds, `timeout_ms` the configured timeout
(`self.timeout.as_millis()`). `fuel` bounds how many iterations are
unrolled; `none` means the loop was still running after `fuel`
iterations (the sleep between iterations is real time, not modelled). -/
def wait_for_go (cond : Nat → Bool) (elapsed : Nat → Nat) (timeout_ms : Nat) :
    Nat → Nat → Option (Except TermTestError Unit)
  | 0, _ => none
  | fuel + 1, i =>
    if cond i then some (Except.ok ())
    else if timeout_ms ≤ elapsed i then
      some (Except.error (TermTestError.Timeout timeout_ms))
    else wait_for_go cond elapsed timeout_ms fuel (i + 1)

/-- The loop of `wait_for`, started at iteration `0`. -/
def wait_for (cond : Nat → Bool) (elapsed : Nat → Nat)
    (timeout_ms fuel : Nat) : Option (Except TermTestError Unit) :=
  wait_for_go cond elapsed timeout_ms fuel 0

/-- If the predicate first holds at iteration `i` and no earlier check
timed out, the loop returns success at iteration `i`. -/
theorem wait_for_go_ok (cond : Nat → Bool) (elapsed : Nat → Nat)
    (timeout_ms : Nat) :
    ∀ fuel n i, n ≤ i → cond i = true →
      (∀ j, n ≤ j → j < i → cond j = false ∧ elapsed j < timeout_ms) →
      i < n + fuel →
      wait_for_go cond elapsed timeout_ms fuel n = some (Except.ok ()) := by
  intro fuel
  induction fuel with
  | zero => intro n i hni _ _ hlt; omega
  | succ fuel ih =>
    intro n i hni hc hprev hlt
    by_cases hn : cond n = true
    · have : n = i := by
        by_contra hne
        have hlt2 : n < i := lt_of_le_of_ne hni hne
        have := (hprev n le_rfl hlt2).1
        rw [this] at hn
        exact absurd hn (by simp)
      simp [wait_for_go, hn]
    · have hlt2 : n < i := by
        rcases lt_or_eq_of_le hni with h | h
        · exact h
        · rw [h] at hn; exact absurd hc hn
      have hne : elapsed n < timeout_ms := (hprev n le_rfl hlt2).2
      have : wait_for_go cond elapsed timeout_ms (fuel + 1) n =
          wait_for_go cond elapsed timeout_ms fuel (n + 1) := by
        simp [wait_for_go, hn, Nat.not_le.mpr hne]
      rw [this]
      exact ih (n + 1) i hlt2 hc
        (fun j hj1 hj2 => hprev j (by omega) hj2)
        (by omega)

/-- If the predicate never holds and some reachable iteration is at or
past the timeout, the loop returns the Timeout error carrying the
configured value. -/
theorem wait_for_go_timeout (cond : Nat → Bool) (elapsed : Nat → Nat)
    (timeout_ms : Nat) (hcond : ∀ j, cond j = false) :
    ∀ fuel n k, n ≤ k → timeout_ms ≤ elapsed k → k < n + fuel →
      wait_for_go cond elapsed timeout_ms fuel n =
        some (Except.error (TermTestError.Timeout timeout_ms)) := by
  intro fuel
  induction fuel with
  | zero => intro n k hnk _ hlt; omega
  | succ fuel ih =>
    intro n k hnk hk hlt
    by_cases hn : timeout_ms ≤ elapsed n
    · simp [wait_for_go, hcond n, hn]
    · have hne : n ≠ k := by
        intro h; rw [h] at hn; exact hn hk
      have : wait_for_go cond elapsed timeout_ms (fuel + 1) n =
          wait_for_go cond elapsed timeout_ms fuel (n + 1) := by
        simp [wait_for_go, hcond n, hn]
      rw [this]
      exact ih (n + 1) k (by omega) hk (by omega)

/-- Claim C4: for every configuration, `wait_for` returns success at the
first iteration whose predicate evaluation is true — the predicate is
checked before the elapsed-time comparison, so this holds even when that
iteration is already past the timeout — and when the predicate never
becomes true it returns the Timeout error carrying the configured
timeout value in milliseconds (at the first iteration at or beyond the
timeout). -/
theorem C4_wait_for (cond : Nat → Bool) (elapsed : Nat → Nat)
    (timeout_ms fuel : Nat) :
    (∀ i, i < fuel → cond i = true →
      (∀ j, j < i → cond j = false ∧ elapsed j < timeout_ms) →
      wait_for cond elapsed timeout_ms fuel = some (Except.ok ()))
    ∧ ((∀ j, cond j = false) → ∀ k, k < fuel → timeout_ms ≤ elapsed k →
        wait_for cond elapsed timeout_ms fuel =
          some (Except.error (TermTestError.Timeout timeout_ms))) := by
  constructor
  · intro i hif hc hprev
    exact wait_for_go_ok cond elapsed timeout_ms fuel 0 i (Nat.zero_le i) hc
      (fun j _ hj2 => hprev j hj2) (by omega)
  · intro hcond k hk hkt
    exact wait_for_go_timeout cond elapsed timeout_ms hcond fuel 0 k
      (Nat.zero_le k) hkt (by omega)

/-- Claim C4 witness: a predicate true at iteration 0 returns success
even though the elapsed reading (700 ms) is already past the 500 ms
timeout; a predicate that never becomes true, polled while elapsed time
grows by 50 ms per iteration, returns the Timeout error carrying the
configured 500 ms. -/
theorem C4_witness :
    wait_for (fun i => decide (i = 0)) (fun _ => 700) 500 1 = some (Except.ok ())
    ∧ wait_for (fun _ => false) (fun i => 50 * i) 500 11 =
        some (Except.error (TermTestError.Timeout 500)) :=
  ⟨(C4_wait_for (fun i => decide (i = 0)) (fun _ => 700) 500 1).1 0
      (by decide) (by decide) (fun j hj => absurd hj (Nat.not_lt_zero j)),
   (C4_wait_for (fun _ => false) (fun i => 50 * i) 500 11).2 (fun _ => rfl) 10
      (by decide) (by decide)⟩

/-- A list of chars starts with the pattern given as second argument. -/
def listStartsWith : List Char → List Char → Bool
  | _, [] => true
  | [], _ :: _ => false
  | c :: cs, d :: ds => c == d && listStartsWith cs ds

/-- The pattern `p` occurs contiguously somewhere in the list. -/
def listHasInfix (p : List Char) : List Char → Bool
  | [] => p.isEmpty
  | c :: rest => listStartsWith (c :: rest) p || listHasInfix p rest

/-- The source's would-block marker: `update_state` breaks its loop when
the error's display string contains this text. -/
def wouldBlockChars : List Char :=
  ['W', 'o', 'u', 'l', 'd', 'B', 'l', 'o', 'c', 'k']

/-- One result of `terminal.read` in `update_state`'s loop: `chunk []`
is `Ok(0)` (no more data), `chunk d` with `d ≠ []` is `Ok(n)` carrying
the bytes read, `ioErr msg` is `Err(e)` where `msg` is `e`'s display
string. -/
inductive ReadOutcome where
  | chunk (data : List Nat)
  | ioErr (msg : List Char)
deriving DecidableEq

/-- From `src/src/harness.rs`, `TuiTestHarness::update_state`: the drain
loop over successive read outcomes. `st` is the byte stream fed to the
screen state so far (`self.state.feed`); the result pairs the final fed
stream with the returned `Result<()>`; `none` means the outcome trace
ran out while the loop still wanted to read. `Ok(0)` breaks, `Ok(n)`
feeds and continues, an error whose string contains "WouldBlock" breaks,
any other error returns immediately. -/
def update_state_go : List ReadOutcome → List Nat →
    Option (List Nat × Except TermTestError Unit)
  | [], _ => none
  | ReadOutcome.chunk [] :: _, st => some (st, Except.ok ())
  | ReadOutcome.chunk (b :: d) :: rest, st => update_state_go rest (st ++ b :: d)
  | ReadOutcome.ioErr msg :: _, st =>
    if listHasInfix wouldBlockChars msg then some (st, Except.ok ())
    else some (st, Except.error (TermTestError.IoFailure msg))

/-- The drain loop feeds every non-empty chunk before a terminating
outcome (`Ok(0)` or a would-block error) and returns success. -/
theorem update_state_go_drain (term : ReadOutcome) (rest : List ReadOutcome)
    (hterm : term = ReadOutcome.chunk [] ∨
      ∃ msg, term = ReadOutcome.ioErr msg ∧
        listHasInfix wouldBlockChars msg = true) :
    ∀ chunks : List (List Nat), (∀ c ∈ chunks, c ≠ []) → ∀ st,
      update_state_go (chunks.map ReadOutcome.chunk ++ term :: rest) st =
        some (st ++ chunks.flatten, Except.ok ()) := by
  intro chunks
  induction chunks with
  | nil =>
    intro _ st
    rcases hterm with h | ⟨msg, hm, hwb⟩
    · subst h; simp [update_state_go]
    · subst hm; simp [update_state_go, hwb]
  | cons c cs ih =>
    intro hne st
    obtain ⟨b, d, rfl⟩ : ∃ b d, c = b :: d := by
      cases c with
      | nil => exact absurd rfl (hne [] (by simp))
      | cons b d => exact ⟨b, d, rfl⟩
    simp only [List.map_cons, List.cons_append, update_state_go]
    simp only [List.append_eq]
    rw [ih (fun x hx => hne x (List.mem_cons_of_mem _ hx)) (st ++ b :: d)]
    simp [List.flatten, List.append_assoc]

/-- The drain loop feeds every non-empty chunk before a genuine (non
would-block) I/O error and propagates that error immediately. -/
theorem update_state_go_io_error (msg : List Char) (rest : List ReadOutcome)
    (hwb : listHasInfix wouldBlockChars msg = false) :
    ∀ chunks : List (List Nat), (∀ c ∈ chunks, c ≠ []) → ∀ st,
      update_state_go (chunks.map ReadOutcome.chunk ++
          ReadOutcome.ioErr msg :: rest) st =
        some (st ++ chunks.flatten, Except.error (TermTestError.IoFailure msg)) := by
  intro chunks
  induction chunks with
  | nil =>
    intro _ st
    simp [update_state_go, hwb]
  | cons c cs ih =>
    intro hne st
    obtain ⟨b, d, rfl⟩ : ∃ b d, c = b :: d := by
      cases c with
      | nil => exact absurd rfl (hne [] (by simp))
      | cons b d => exact ⟨b, d, rfl⟩
    simp only [List.map_cons, List.cons_append, update_state_go]
    simp only [List.append_eq]
    rw [ih (fun x hx => hne x (List.mem_cons_of_mem _ hx)) (st ++ b :: d)]
    simp [List.flatten, List.append_assoc]

/-- Claim C8: `update_state` drains the source completely before
returning — every non-empty chunk read before the loop ends is fed to
the screen state in order; `Ok(0)` or a would-block error terminates the
loop normally with success, while a genuine I/O failure is propagated
immediately as an error (with everything read before it already fed). -/
theorem C8_update_state (chunks : List (List Nat)) (st : List Nat)
    (rest : List ReadOutcome) :
    (∀ term, (∀ c ∈ chunks, c ≠ []) →
      (term = ReadOutcome.chunk [] ∨
        ∃ msg, term = ReadOutcome.ioErr msg ∧
          listHasInfix wouldBlockChars msg = true) →
      update_state_go (chunks.map ReadOutcome.chunk ++ term :: rest) st =
        some (st ++ chunks.flatten, Except.ok ()))
    ∧ (∀ msg, (∀ c ∈ chunks, c ≠ []) →
        listHasInfix wouldBlockChars msg = false →
        update_state_go (chunks.map ReadOutcome.chunk ++
            ReadOutcome.ioErr msg :: rest) st =
          some (st ++ chunks.flatten, Except.error (TermTestError.IoFailure msg))) := by
  constructor
  · intro term hne hterm
    exact update_state_go_drain term rest hterm chunks hne st
  · intro msg hne hwb
    exact update_state_go_io_error msg rest hwb chunks hne st

/-- Claim C8 witness: two non-empty chunks followed by `Ok(0)` are both
fed and the call succeeds; the same two chunks followed by a genuine
I/O error are both fed and the error is returned. -/
theorem C8_witness :
    update_state_go [ReadOutcome.chunk [1, 2], ReadOutcome.chunk [3],
        ReadOutcome.chunk []] [] = some ([1, 2, 3], Except.ok ())
    ∧ update_state_go [ReadOutcome.chunk [1, 2], ReadOutcome.chunk [3],
        ReadOutcome.ioErr ['b', 'a', 'd']] [] =
      some ([1, 2, 3], Except.error (TermTestError.IoFailure ['b', 'a', 'd'])) :=
  ⟨by
    have h := (C8_update_state [[1, 2], [3]] [] []).1 (ReadOutcome.chunk [])
      (by simp) (Or.inl rfl)
    simpa using h,
   by
    have h := (C8_update_state [[1, 2], [3]] [] []).2 ['b', 'a', 'd']
      (by simp) (by decide)
    simpa using h⟩

/-- UTF-8 byte length of a Rust string, modelled on its chars: in the
source, `row_contents.len()` is a byte count, not a char count. -/
def utf8Len (cs : List Char) : Nat := (cs.map Char.utf8Size).sum

/-- Byte slicing of a Rust string at a byte offset (`&s[k..]`): `none`
models the panic raised when the offset does not fall on a character
boundary. -/
def byteSlice : List Char → Nat → Option (List Char)
  | cs, 0 => some cs
  | [], _ + 1 => none
  | c :: cs, k + 1 =>
    if c.utf8Size ≤ k + 1 then byteSlice cs (k + 1 - c.utf8Size) else none

/-- From `src/src/screen.rs`, the query side of `ScreenState`: the vt100
cell-grid emulator is an external dependency, so the cell matrix is
abstracted as an oracle giving each cell's contents string; `none`
models `screen.cell(row, col)` returning `None`. -/
structure ScreenGrid where
  width : Nat
  height : Nat
  cell : Nat → Nat → Option (List Char)

/-- From `src/src/screen.rs`, `ScreenState::row_contents`: empty for an
out-of-range row, otherwise the concatenation over the columns of each
cell's contents (a space when the emulator returns no cell). -/
def ScreenGrid.row_contents (s : ScreenGrid) (row : Nat) : List Char :=
  if s.height ≤ row then []
  else ((List.range s.width).map (fun col => (s.cell row col).getD [' '])).flatten

/-- From `src/src/screen.rs`, `ScreenState::text_at`: `false` when the
position is outside the screen dimensions or when `col`, used as a byte
index, is at or past the row string's byte length; otherwise the row
string is sliced at byte offset `col` — a panic (`none`) when that
offset falls inside a multi-byte character — and the slice is tested for
starting with `text`. -/
def ScreenGrid.text_at (s : ScreenGrid) (row col : Nat) (text : List Char) :
    Option Bool :=
  if s.height ≤ row || s.width ≤ col then some false
  else
    let rc := s.row_contents row
    if utf8Len rc ≤ col then some false
    else (byteSlice rc col).map (fun rest => listStartsWith rest text)

/-- Claim C10: the claim fails on the code: on a 2×1 screen whose cell
(0, 0) holds the two-byte character 'é' (reachable by feeding é's UTF-8
bytes through the emulator), `text_at 0 1 "x"` passes both range guards
(col 1 is below width 2 and below the byte length 3 of the row string)
and then slices the row string at byte offset 1 — inside the character —
where the source panics (`none` here) instead of returning a boolean. -/
theorem C10_text_at_panics :
    ScreenGrid.text_at
        ⟨2, 1, fun r c => if r == 0 && c == 0 then some ['é'] else some [' ']⟩
        0 1 ['x'] = none := by
  decide
